import Mathlib

/-!
Verification of the dnspyre DNS benchmark engine (Go) against its
natural-language specification.

Shallow embedding: the relevant Go functions from `cmd/benchmark.go`
(`Benchmark.prepare`, `Benchmark.addPortIfMissing`, `addEdnsOpt`, the
per-worker query closure and message construction inside `Benchmark.Run`)
and from the reporter package (`PrintReport` counter merging, `errString`)
are translated into executable Lean definitions.  Machine integers
(`int64`, `uint16`, `uint32`) are modelled as `Int`/`Nat`; the counters
never overflow in any realizable run (each increment is `+1` per issued
query), so plain integer addition is the denotation of the Go `+`.
`float64` values (`Probability` and the PRNG draw) enter the code only
through the exact comparison `u > Probability`; they are modelled as `ℚ`,
which is faithful for order comparisons on representable values, and the
boundary values 0 and 1 are exactly representable floats.

Behaviour of Go standard-library functions used by the embedded code
(`strings.Split`, `net.SplitHostPort`, `net.JoinHostPort`,
`hex.DecodeString`, `strconv.ParseUint`, and the error conditions of
`net/url.Parse` on scheme-prefixed server URLs) and of the miekg/dns
message helpers (`Msg.SetEdns0`, `Msg.IsEdns0`, `OPT.SetDo`) is
translated from their sources as well, restricted to the inputs this
program can pass.
-/

namespace Dnspyre

/-- First index of character `c` in a character list, if any
(Go `bytealg.IndexByteString`, restricted to ASCII arguments as used here). -/
def firstIdxOf (c : Char) : List Char → Option Nat
  | [] => none
  | x :: xs => if x = c then some 0 else (firstIdxOf c xs).map (· + 1)

/-- Last index of character `c` in a character list, if any
(Go `last(s, b)` helper used by `net.SplitHostPort`). -/
def lastIdxOf (c : Char) (cs : List Char) : Option Nat :=
  match firstIdxOf c cs.reverse with
  | none => none
  | some j => some (cs.length - 1 - j)

/-- Whether `p` is a prefix of `cs`, by direct character recursion. -/
def charsHavePre : List Char → List Char → Bool
  | [], _ => true
  | _ :: _, [] => false
  | p :: ps, c :: cs => p = c && charsHavePre ps cs

/-- Go `strings.HasPrefix(s, pre)`. -/
def strStarts (s pre : String) : Bool := charsHavePre pre.data s.data

/-- Go `strings.Contains(s, string(c))` for a single character. -/
def strHasChar (s : String) (c : Char) : Bool := s.data.contains c

/-- Go `strings.Split(s, string(sep))` for a one-character separator, on
character lists: splits around every occurrence of `sep`, keeping empty
parts. -/
def splitCharsOn (sep : Char) : List Char → List (List Char)
  | [] => [[]]
  | c :: rest =>
    let r := splitCharsOn sep rest
    if c = sep then [] :: r
    else
      match r with
      | [] => [[c]]
      | h :: t => (c :: h) :: t

/-- Go `strings.Split(s, ":")` as used by the EDNS-option handling. -/
def splitOnColon (s : String) : List String :=
  (splitCharsOn ':' s.data).map String.mk

/-- Whether `net.SplitHostPort` succeeds on `s` (returns a nil error).
Translated from `net/ipsock.go`: the last `':'` separates host and port;
a leading `'['` must be matched by a `']'` immediately before that colon;
otherwise the host part may not contain a further `':'`, and no stray
`'['`/`']'` may appear. -/
def splitHostPortOk (s : String) : Bool :=
  let cs := s.data
  match lastIdxOf ':' cs with
  | none => false
  | some i =>
    if cs.head? = some '[' then
      match firstIdxOf ']' cs with
      | none => false
      | some e =>
        if e + 1 = cs.length then false
        else if e + 1 = i then
          !((cs.drop 1).contains '[') && !((cs.drop (e + 1)).contains ']')
        else false
    else
      !((cs.take i).contains ':') && !(cs.contains '[') && !(cs.contains ']')

/-- Go `net.JoinHostPort`: brackets the host when it contains a colon. -/
def joinHostPort (host port : String) : String :=
  if strHasChar host ':' then "[" ++ host ++ "]" ++ ":" ++ port
  else host ++ ":" ++ port

/-- The boolean component of `isHTTPUrl` in `benchmark.go`. -/
def isHTTPUrl (s : String) : Bool :=
  strStarts s "http://" || strStarts s "https://"

/-- Go `strings.TrimPrefix`. -/
def trimPre (pre s : String) : String :=
  if strStarts s pre then String.mk (s.data.drop pre.data.length) else s

/-- Path component of a DoH server URL, modelling `url.Parse(s).Path` for
well-formed `http://`/`https://` URLs: the characters from the first `'/'`
after the authority up to a `'?'` or `'#'`; empty when the authority is
followed directly by `'?'`, `'#'` or the end of the string. -/
def urlPath (s : String) : String :=
  let rest := if strStarts s "http://" then s.data.drop 7
    else if strStarts s "https://" then s.data.drop 8 else s.data
  let cs := rest.dropWhile (fun c => !(c = '/' || c = '?' || c = '#'))
  match cs with
  | '/' :: _ => String.mk (cs.takeWhile (fun c => !(c = '?' || c = '#')))
  | _ => ""

/-- Value of a hexadecimal digit (Go `encoding/hex.fromHexChar`). -/
def hexDigitVal (c : Char) : Option Nat :=
  if '0' ≤ c ∧ c ≤ '9' then some (c.toNat - 48)
  else if 'a' ≤ c ∧ c ≤ 'f' then some (c.toNat - 87)
  else if 'A' ≤ c ∧ c ≤ 'F' then some (c.toNat - 55)
  else none

/-- Whether a byte value may appear unescaped in the host component of
a URL: Go `net/url.shouldEscape` with mode `encodeHost`, negated —
alphanumerics, the sub-delims plus `: [ ] < > "`, and the unreserved
marks `- _ . ~`. -/
def hostByteAllowed (v : Nat) : Bool :=
  (48 ≤ v && v ≤ 57) || (65 ≤ v && v ≤ 90) || (97 ≤ v && v ≤ 122) ||
  [33, 36, 38, 39, 40, 41, 42, 43, 44, 59, 61, 58, 91, 93, 60, 62, 34].contains v ||
  [45, 95, 46, 126].contains v

/-- Percent-escapes of `cs` are well formed: every `'%'` is followed by
two hexadecimal digits.  This is the only error source of Go
`net/url.unescape` in the path, fragment and user-password modes. -/
def escapesOk : List Char → Bool
  | [] => true
  | '%' :: h1 :: h2 :: rest =>
    (hexDigitVal h1).isSome && (hexDigitVal h2).isSome && escapesOk rest
  | '%' :: _ => false
  | _ :: rest => escapesOk rest

/-- Go `net/url.unescape` with mode `encodeHost` returns a nil error:
escapes must be two valid hex digits and, for bytes below `0x80`, only
`%25` is permitted; unescaped ASCII characters must be in the allowed
host set (non-ASCII characters pass). -/
def unescapeHostOk : List Char → Bool
  | [] => true
  | '%' :: h1 :: h2 :: rest =>
    match hexDigitVal h1, hexDigitVal h2 with
    | some v1, some _ =>
      (if v1 < 8 then h1 = '2' && h2 = '5' else true) && unescapeHostOk rest
    | _, _ => false
  | '%' :: _ => false
  | c :: rest =>
    (if c.toNat < 128 then hostByteAllowed c.toNat else true) && unescapeHostOk rest

/-- Go `net/url.unescape` with mode `encodeZone` returns a nil error:
like the host mode, but an escape is permitted when it is `%25`, decodes
to a space, or decodes to an allowed host byte (RFC 6874 zone rules). -/
def unescapeZoneOk : List Char → Bool
  | [] => true
  | '%' :: h1 :: h2 :: rest =>
    match hexDigitVal h1, hexDigitVal h2 with
    | some v1, some v2 =>
      ((h1 = '2' && h2 = '5') || (v1 * 16 + v2 = 32) || hostByteAllowed (v1 * 16 + v2)) &&
        unescapeZoneOk rest
    | _, _ => false
  | '%' :: _ => false
  | c :: rest =>
    (if c.toNat < 128 then hostByteAllowed c.toNat else true) && unescapeZoneOk rest

/-- Go `net/url.validOptionalPort`: empty, or a colon followed by
decimal digits only. -/
def validOptionalPort : List Char → Bool
  | [] => true
  | ':' :: rest => rest.all (fun c => '0' ≤ c && c ≤ '9')
  | _ => false

/-- Character set of Go `net/url.validUserinfo` (RFC 3986 userinfo). -/
def userinfoCharAllowed (c : Char) : Bool :=
  ('A' ≤ c && c ≤ 'Z') || ('a' ≤ c && c ≤ 'z') || ('0' ≤ c && c ≤ '9') ||
  ['-', '.', '_', ':', '~', '!', '$', '&', '\'', '(', ')', '*', '+', ',', ';', '=', '%', '@'].contains c

/-- Index of the first occurrence of the substring `%25`
(Go `strings.Index(s, "%25")` as used by `parseHost` for IPv6 zones). -/
def idxOfPct25 : List Char → Option Nat
  | '%' :: '2' :: '5' :: _ => some 0
  | _ :: rest => (idxOfPct25 rest).map (· + 1)
  | [] => none

/-- Go `net/url.parseHost` returns a nil error: a bracketed host needs a
closing `']'`, a valid optional port after it, and host/zone-unescapable
pieces around a `%25` zone separator; an unbracketed host needs a valid
optional port after its last `':'` and must host-unescape. -/
def parseHostOk (host : List Char) : Bool :=
  if host.head? = some '[' then
    match lastIdxOf ']' host with
    | none => false
    | some j =>
      validOptionalPort (host.drop (j + 1)) &&
        (match idxOfPct25 (host.take j) with
         | some z =>
           unescapeHostOk (host.take z) &&
             unescapeZoneOk ((host.take j).drop z) &&
             unescapeHostOk (host.drop j)
         | none => unescapeHostOk host)
  else
    match lastIdxOf ':' host with
    | some i => validOptionalPort (host.drop i) && unescapeHostOk host
    | none => unescapeHostOk host

/-- Go `net/url.parseAuthority` returns a nil error: the host after the
last `'@'` must parse, and any userinfo before it must use the userinfo
character set with well-formed escapes. -/
def parseAuthorityOk (authority : List Char) : Bool :=
  match lastIdxOf '@' authority with
  | none => parseHostOk authority
  | some i =>
    parseHostOk (authority.drop (i + 1)) &&
      (authority.take i).all userinfoCharAllowed &&
      escapesOk (authority.take i)

/-- Whether Go `url.Parse` succeeds on a server string carrying an
`http://` or `https://` prefix (the only strings the DoH branch of
`prepare` passes to it).  Translated from `net/url` `Parse`/`parse`:
the fragment is cut at the first `'#'`; the remainder must be free of
control characters; after the scheme, the query is cut at the first
`'?'` (unvalidated); the authority runs to the first `'/'` and must
satisfy `parseAuthority`; the path must have well-formed escapes; a
non-empty fragment must have well-formed escapes. -/
def urlParseOk (s : String) : Bool :=
  let cs := s.data
  let u := cs.takeWhile (fun c => !(c = '#'))
  let frag := (cs.dropWhile (fun c => !(c = '#'))).drop 1
  (u.all (fun c => !(c.toNat < 32 || c.toNat = 127))) &&
    (let rest := if charsHavePre "https://".data u then u.drop 6 else u.drop 5
     let rest := rest.takeWhile (fun c => !(c = '?'))
     let ap := rest.drop 2
     let authority := ap.takeWhile (fun c => !(c = '/'))
     let path := ap.dropWhile (fun c => !(c = '/'))
     parseAuthorityOk authority && escapesOk path) &&
    (frag.isEmpty || escapesOk frag)

/-- Core of Go `hex.Decode`: decodes two characters per byte, returns the
bytes decoded before any error together with an ok flag (Go returns the
decoded prefix alongside a non-nil error on a bad digit or odd length). -/
def hexDecodeCore : List Char → List Nat × Bool
  | [] => ([], true)
  | [_] => ([], false)
  | a :: b :: rest =>
    match hexDigitVal a, hexDigitVal b with
    | some x, some y =>
      let t := hexDecodeCore rest
      ((x * 16 + y) :: t.1, t.2)
    | _, _ => ([], false)

/-- Go `hex.DecodeString` as a validator: `some bytes` iff it returns a
nil error. -/
def hexDecodeString (s : String) : Option (List Nat) :=
  let t := hexDecodeCore s.data
  if t.2 then some t.1 else none

/-- Digit-consuming loop of Go `strconv.ParseUint(s, 10, 16)`: on a
non-digit character the result value is 0, on exceeding `maxVal` it is
`maxVal`; the flag records a nil error. -/
def parseUintLoop (maxVal : Nat) : List Char → Nat → Nat × Bool
  | [], n => (n, true)
  | c :: cs, n =>
    if '0' ≤ c ∧ c ≤ '9' then
      let n1 := n * 10 + (c.toNat - 48)
      if maxVal < n1 then (maxVal, false) else parseUintLoop maxVal cs n1
    else (0, false)

/-- Go `strconv.ParseUint(s, 10, 16)`: empty strings, signs, underscores
and non-digits are syntax errors; values above `2^16 - 1` are range
errors. -/
def parseUint16 (s : String) : Nat × Bool :=
  if s = "" then (0, false) else parseUintLoop 65535 s.data 0

/-- The `EdnsOpt` validation block of `Benchmark.prepare`
(`benchmark.go` lines 218-231): split on `':'` into exactly two parts,
the right part must be a hexadecimal string, the left part an unsigned
16-bit decimal.  Returns the error message, or `none` on success. -/
def validateEdnsOpt (s : String) : Option String :=
  let split := splitOnColon s
  if split.length ≠ 2 then some "--ednsopt is not in correct format"
  else if (hexDecodeString (split.getD 1 "")).isNone then
    some "--ednsopt is not in correct format, data is not hexadecimal string"
  else if (parseUint16 (split.getD 0 "")).2 = false then
    some "--ednsopt is not in correct format, code is not a decimal number"
  else none

/-- The fields of the Go `Benchmark` struct that the embedded code reads
or writes.  `Count` and `Duration` are `int64` (durations in
nanoseconds), `Edns0` is `uint16`, `Probability` is `float64` modelled
as `ℚ`. -/
structure Benchmark where
  Server : String := ""
  Count : Int := 0
  Duration : Int := 0
  QperConn : Int := 0
  Recurse : Bool := false
  Probability : ℚ := 1
  EdnsOpt : String := ""
  DNSSEC : Bool := false
  Edns0 : Nat := 0
  TCP : Bool := false
  DOT : Bool := false
  RequestTimeout : Int := 0
  HistMax : Int := 0
  useDoH : Bool := false
  useQuic : Bool := false
  deriving Repr, DecidableEq

/-- Go `Benchmark.addPortIfMissing`: DoH servers are untouched; otherwise a
server not in host:port form gets port 853 (DoT and DoQ, per RFC 7858 and
RFC 9250) or 53 appended. -/
def addPortIfMissing (b : Benchmark) : Benchmark :=
  if b.useDoH then b
  else if splitHostPortOk b.Server then b
  else if b.DOT then { b with Server := joinHostPort b.Server "853" }
  else if b.useQuic then { b with Server := joinHostPort b.Server "853" }
  else { b with Server := joinHostPort b.Server "53" }

/-- Scheme detection of `Benchmark.prepare` (`benchmark.go` lines
184-185): DoH from an `http://`/`https://` prefix, DoQ from a
`quic://` prefix of the configured server. -/
def detectScheme (b : Benchmark) : Benchmark :=
  { b with useDoH := isHTTPUrl b.Server,
           useQuic := strStarts b.Server "quic://" }

/-- The `quic://` scheme stripping (`benchmark.go` lines 186-188). -/
def stripQuic (b : Benchmark) : Benchmark :=
  if b.useQuic then { b with Server := trimPre "quic://" b.Server } else b

/-- The successful outcome of the DoH default-path step: when the
parsed URL has an empty path, `/dns-query` is appended. -/
def dohAppend (b : Benchmark) : Benchmark :=
  if b.useDoH then
    (if urlPath b.Server = "" then { b with Server := b.Server ++ "/dns-query" } else b)
  else b

/-- DoH default-path appending (`benchmark.go` lines 190-198): for a DoH
server the URL is parsed with `url.Parse`, whose error is returned from
`prepare`; on success, `/dns-query` is appended when the parsed URL has
an empty path. -/
def addDohPath (b : Benchmark) : Except String Benchmark :=
  if b.useDoH then
    (if urlParseOk b.Server then .ok (dohAppend b)
     else .error "failed to parse server URL")
  else .ok b

/-- Server-normalization phase of `Benchmark.prepare` (`benchmark.go`
lines 184-200): detect DoH and DoQ from the `Server` prefix, strip the
`quic://` scheme, parse the DoH URL and append the `/dns-query` default
path when it has no path (propagating the `url.Parse` error), then
default the port. -/
def normalizeServer (b : Benchmark) : Except String Benchmark :=
  match addDohPath (stripQuic (detectScheme b)) with
  | .error e => .error e
  | .ok nb => .ok (addPortIfMissing nb)

/-- Termination-bound defaulting (`benchmark.go` lines 202-204): when
neither `Count` nor `Duration` is set, run each domain once. -/
def defaultCount (b : Benchmark) : Benchmark :=
  if b.Count = 0 ∧ b.Duration = 0 then { b with Count := 1 } else b

/-- Histogram-bound defaulting (`benchmark.go` lines 210-212). -/
def defaultHistMax (b : Benchmark) : Benchmark :=
  if b.HistMax = 0 then { b with HistMax := b.RequestTimeout } else b

/-- Validation phase of `Benchmark.prepare` (`benchmark.go` lines
202-233): exclusivity of `Count` and `Duration`, `Edns0` buffer range,
and `EdnsOpt` format. -/
def prepareChecks (b0 : Benchmark) : Except String Benchmark :=
  let b := defaultCount b0
  if 0 < b.Duration ∧ 0 < b.Count then
    .error "--number and --duration is specified at once, only one can be used" else
  let b := defaultHistMax b
  if b.Edns0 ≠ 0 ∧ (b.Edns0 < 512 ∨ 4096 < b.Edns0) then
    .error "--edns0 must have value between 512 and 4096" else
  if b.EdnsOpt ≠ "" then
    match validateEdnsOpt b.EdnsOpt with
    | some e => .error e
    | none => .ok b
  else .ok b

/-- Go `Benchmark.prepare`: validates and normalizes the configuration
(`benchmark.go` lines 179-234), propagating the `url.Parse` error of the
DoH branch. -/
def prepare (b : Benchmark) : Except String Benchmark :=
  if b.Server = "" then .error "server for benchmarking must not be empty" else
  match normalizeServer b with
  | .error e => .error e
  | .ok nb => prepareChecks nb

/-- An EDNS OPT pseudo-record as the embedded code manipulates it
(miekg/dns `OPT`): the requestor's UDP buffer size (stored in the record
class), the DO bit (stored in the TTL), and the list of EDNS0 options,
each a code point with its data bytes (`EDNS0_LOCAL`). -/
structure OPTRec where
  udpSize : Nat
  doBit : Bool
  options : List (Nat × List Nat)
  deriving Repr, DecidableEq

/-- A resource record in `Msg.Extra`: either an OPT record or some other
record type (which the embedded code never inspects). -/
inductive RR where
  | opt (o : OPTRec) : RR
  | other : RR
  deriving Repr, DecidableEq

/-- A DNS question (miekg/dns `Question`). -/
structure Question where
  Name : String
  Qtype : Nat
  Qclass : Nat
  deriving Repr, DecidableEq

/-- The parts of a miekg/dns `Msg` the embedded code reads or writes. -/
structure Msg where
  Id : Nat := 0
  RecursionDesired : Bool := false
  Question : List Question := []
  Extra : List RR := []
  deriving Repr, DecidableEq

/-- First OPT record of an additional section (miekg/dns `Msg.IsEdns0`
scans `Extra` and returns the first record of type OPT). -/
def firstOpt : List RR → Option OPTRec
  | [] => none
  | .opt o :: _ => some o
  | .other :: rest => firstOpt rest

/-- miekg/dns `Msg.IsEdns0`. -/
def isEdns0 (m : Msg) : Option OPTRec := firstOpt m.Extra

/-- miekg/dns `Msg.SetEdns0(udpsize, do)`: appends a fresh OPT record
with the given buffer size and DO bit to `Extra`. -/
def setEdns0 (m : Msg) (udpsize : Nat) (doBit : Bool) : Msg :=
  { m with Extra := m.Extra ++ [.opt { udpSize := udpsize, doBit := doBit, options := [] }] }

/-- Applies `f` to the first OPT record of the list, if any; models a
mutation through the pointer returned by `Msg.IsEdns0`. -/
def updFirstOpt (f : OPTRec → OPTRec) : List RR → List RR
  | [] => []
  | .opt o :: rest => .opt (f o) :: rest
  | .other :: rest => .other :: updFirstOpt f rest

/-- Go `addEdnsOpt` (`benchmark.go` lines 475-485): ensure an OPT record
exists (creating one with the 1232-byte default buffer size), split the
option string on `':'`, hex-decode the data and parse the code with
errors discarded, and append the resulting `EDNS0_LOCAL` option to the
OPT record.  Go indexes `s[1]` unconditionally (a panic when absent);
`prepare` guarantees two parts, and the model totalizes with `getD`. -/
def addEdnsOpt (m : Msg) (ednsOpt : String) : Msg :=
  let m := if (isEdns0 m).isNone then setEdns0 m 1232 false else m
  let s := splitOnColon ednsOpt
  let data := (hexDecodeCore (s.getD 1 "").data).1
  let code := (parseUint16 (s.getD 0 "")).1
  { m with Extra := updFirstOpt (fun o => { o with options := o.options ++ [(code, data)] }) m.Extra }

/-- The DNSSEC branch of the worker loop (`benchmark.go` lines 445-452):
ensure an OPT record exists (creating one with the 1232-byte default
buffer size) and set its DO bit. -/
def dnssecStep (m : Msg) : Msg :=
  let m := if (isEdns0 m).isNone then setEdns0 m 1232 false else m
  { m with Extra := updFirstOpt (fun o => { o with doBit := true }) m.Extra }

/-- Base DNS request of one worker iteration (`benchmark.go` lines
426-437): fresh message, `RecursionDesired` from the configuration, one
question, and the transaction id — 0 for DoQ, otherwise
`uint16(rando.Uint32())`, i.e. the PRNG draw reduced mod `2^16`. -/
def msgCore (b : Benchmark) (rand32 : Nat) (q : String) (qt : Nat) : Msg :=
  { Id := if b.useQuic then 0 else rand32 % 65536,
    RecursionDesired := b.Recurse,
    Question := [{ Name := q, Qtype := qt, Qclass := 1 }] }

/-- The `Edns0` step of the worker loop (`benchmark.go` lines 439-441). -/
def msgEdns0 (b : Benchmark) (m : Msg) : Msg :=
  if 0 < b.Edns0 then setEdns0 m b.Edns0 false else m

/-- The `EdnsOpt` step of the worker loop (`benchmark.go` lines 442-444). -/
def msgEdnsOpt (b : Benchmark) (m : Msg) : Msg :=
  if b.EdnsOpt ≠ "" then addEdnsOpt m b.EdnsOpt else m

/-- The `DNSSEC` step of the worker loop (`benchmark.go` lines 445-452). -/
def msgDnssec (b : Benchmark) (m : Msg) : Msg :=
  if b.DNSSEC then dnssecStep m else m

/-- DNS request construction of one worker iteration (`benchmark.go`
lines 426-452), parameterized by the worker PRNG draw `rand32`
(`rando.Uint32()`). -/
def buildMsg (b : Benchmark) (rand32 : Nat) (q : String) (qt : Nat) : Msg :=
  msgDnssec b (msgEdnsOpt b (msgEdns0 b (msgCore b rand32 q qt)))

/-- State of one worker's plain-DNS/DoT connection handle: whether a
connection is currently open (`co != nil`) and how many dial events have
occurred. -/
structure ConnState where
  co : Bool
  dials : Nat
  deriving Repr, DecidableEq

/-- One call of the per-worker query closure (`benchmark.go` lines
383-402) in the absence of transport errors, at repetition counter `i`:
when a connection is open, `QperConn > 0` and `i % QperConn == 0`, close
it; then dial if no connection is open.  `QperConn ≤ 0` (never rotate)
is modelled by `k = 0`. -/
def queryConn (k i : Nat) (st : ConnState) : ConnState :=
  let st := if st.co && (k != 0) && (i % k == 0) then { st with co := false } else st
  if st.co then st else { co := true, dials := st.dials + 1 }

/-- All query closure calls of one repetition `i` of the worker loop:
the inner loops over questions and query types perform
`qpi = |questions| * |types|` calls, all at the same repetition
counter `i` (with `Probability ≥ 1`, no iteration is skipped). -/
def runRep (qpi k i : Nat) (st : ConnState) : ConnState :=
  (List.range qpi).foldl (fun s _ => queryConn k i s) st

/-- A full count-bounded worker run (`for i = 0; i < b.Count; i++`)
starting with no connection: `count` repetitions of `qpi` queries each,
rotating every `k` queries per the `QperConn` check. -/
def runWorker (count qpi k : Nat) : ConnState :=
  (List.range count).foldl (fun s i => runRep qpi k i s) ⟨false, 0⟩

/-- Ceiling division on naturals, `⌈n / k⌉`. -/
def ceilDivNat (n k : Nat) : Nat := (n + k - 1) / k

/-- The probability gate of the worker loop (`benchmark.go` line 411):
the iteration is skipped exactly when the uniform draw
`u = rando.Float64() ∈ [0,1)` satisfies `u > Probability`. -/
def shouldSkipIter (u prob : ℚ) : Bool := prob < u

/-- Number of queries recorded by a worker whose probability-gate draws
are `draws`: each non-skipped iteration issues exactly one query and
increments `Total` once via `st.record`. -/
def recordedTotal (prob : ℚ) (draws : List ℚ) : Nat :=
  (draws.filter (fun u => !shouldSkipIter u prob)).length

/-- The per-worker counters (`dnsbench.Counters`), `int64` fields. -/
structure Counters where
  Total : Int := 0
  IOError : Int := 0
  Success : Int := 0
  Negative : Int := 0
  Error : Int := 0
  IDmismatch : Int := 0
  Truncated : Int := 0
  deriving Repr, DecidableEq

/-- One step of the counter-merging loop of `PrintReport` (reporter,
lines 82-92): `totalCounters` is rebuilt with each field increased by
the worker's counter when the worker's `Counters` pointer is non-nil,
and kept unchanged otherwise. -/
def mergeStep (acc : Counters) (s : Option Counters) : Counters :=
  match s with
  | none => acc
  | some c =>
    { Total := acc.Total + c.Total
      IOError := acc.IOError + c.IOError
      Success := acc.Success + c.Success
      Negative := acc.Negative + c.Negative
      Error := acc.Error + c.Error
      IDmismatch := acc.IDmismatch + c.IDmismatch
      Truncated := acc.Truncated + c.Truncated }

/-- The counter-merging fold of `PrintReport` (reporter, lines 53-93):
field-wise summation over the worker recorders, skipping recorders whose
`Counters` pointer is nil. -/
def mergeCounters (stats : List (Option Counters)) : Counters :=
  stats.foldl mergeStep {}

/-- Classification of a recorded error value for reporting, as seen by
`errors.As` in `errString`: a `*net.DNSError` (underlying message and
queried name), a `*net.OpError` (operation, network, and optional
address), or any other error with its raw message. -/
inductive RecError where
  | dnsErr (err name : String) : RecError
  | opErr (op net : String) (addr : Option String) : RecError
  | plainErr (msg : String) : RecError
  deriving Repr, DecidableEq

/-- Go `errString` (reporter, lines 187-204): DNS resolve errors surface
the underlying message and the queried name; net op errors surface the
operation, network and (when non-nil) address; all other errors surface
their raw message. -/
def errString : RecError → String
  | .dnsErr e n => e ++ " " ++ n
  | .opErr op net addr =>
    match addr with
    | some a => op ++ " " ++ net ++ " " ++ a
    | none => op ++ " " ++ net
  | .plainErr msg => msg

/-! ### Field-preservation lemmas for the `prepare` pipeline -/

@[simp] theorem addPortIfMissing_useDoH (b : Benchmark) : (addPortIfMissing b).useDoH = b.useDoH := by
  unfold addPortIfMissing; (repeat' split); all_goals rfl

@[simp] theorem addPortIfMissing_useQuic (b : Benchmark) : (addPortIfMissing b).useQuic = b.useQuic := by
  unfold addPortIfMissing; (repeat' split); all_goals rfl

@[simp] theorem addPortIfMissing_Count (b : Benchmark) : (addPortIfMissing b).Count = b.Count := by
  unfold addPortIfMissing; (repeat' split); all_goals rfl

@[simp] theorem addPortIfMissing_Duration (b : Benchmark) : (addPortIfMissing b).Duration = b.Duration := by
  unfold addPortIfMissing; (repeat' split); all_goals rfl

@[simp] theorem addPortIfMissing_Edns0 (b : Benchmark) : (addPortIfMissing b).Edns0 = b.Edns0 := by
  unfold addPortIfMissing; (repeat' split); all_goals rfl

@[simp] theorem addPortIfMissing_EdnsOpt (b : Benchmark) : (addPortIfMissing b).EdnsOpt = b.EdnsOpt := by
  unfold addPortIfMissing; (repeat' split); all_goals rfl

@[simp] theorem addPortIfMissing_HistMax (b : Benchmark) : (addPortIfMissing b).HistMax = b.HistMax := by
  unfold addPortIfMissing; (repeat' split); all_goals rfl

@[simp] theorem addPortIfMissing_RequestTimeout (b : Benchmark) :
    (addPortIfMissing b).RequestTimeout = b.RequestTimeout := by
  unfold addPortIfMissing; (repeat' split); all_goals rfl

@[simp] theorem stripQuic_Count (b : Benchmark) : (stripQuic b).Count = b.Count := by
  unfold stripQuic; split <;> rfl

@[simp] theorem stripQuic_Duration (b : Benchmark) : (stripQuic b).Duration = b.Duration := by
  unfold stripQuic; split <;> rfl

@[simp] theorem stripQuic_Edns0 (b : Benchmark) : (stripQuic b).Edns0 = b.Edns0 := by
  unfold stripQuic; split <;> rfl

@[simp] theorem stripQuic_EdnsOpt (b : Benchmark) : (stripQuic b).EdnsOpt = b.EdnsOpt := by
  unfold stripQuic; split <;> rfl

@[simp] theorem stripQuic_HistMax (b : Benchmark) : (stripQuic b).HistMax = b.HistMax := by
  unfold stripQuic; split <;> rfl

@[simp] theorem stripQuic_RequestTimeout (b : Benchmark) :
    (stripQuic b).RequestTimeout = b.RequestTimeout := by
  unfold stripQuic; split <;> rfl

@[simp] theorem stripQuic_useQuic (b : Benchmark) : (stripQuic b).useQuic = b.useQuic := by
  unfold stripQuic; split <;> rfl

@[simp] theorem stripQuic_useDoH (b : Benchmark) : (stripQuic b).useDoH = b.useDoH := by
  unfold stripQuic; split <;> rfl

@[simp] theorem dohAppend_Count (b : Benchmark) : (dohAppend b).Count = b.Count := by
  unfold dohAppend; (repeat' split); all_goals rfl

@[simp] theorem dohAppend_Duration (b : Benchmark) : (dohAppend b).Duration = b.Duration := by
  unfold dohAppend; (repeat' split); all_goals rfl

@[simp] theorem dohAppend_Edns0 (b : Benchmark) : (dohAppend b).Edns0 = b.Edns0 := by
  unfold dohAppend; (repeat' split); all_goals rfl

@[simp] theorem dohAppend_EdnsOpt (b : Benchmark) : (dohAppend b).EdnsOpt = b.EdnsOpt := by
  unfold dohAppend; (repeat' split); all_goals rfl

@[simp] theorem dohAppend_HistMax (b : Benchmark) : (dohAppend b).HistMax = b.HistMax := by
  unfold dohAppend; (repeat' split); all_goals rfl

@[simp] theorem dohAppend_RequestTimeout (b : Benchmark) :
    (dohAppend b).RequestTimeout = b.RequestTimeout := by
  unfold dohAppend; (repeat' split); all_goals rfl

@[simp] theorem dohAppend_useQuic (b : Benchmark) : (dohAppend b).useQuic = b.useQuic := by
  unfold dohAppend; (repeat' split); all_goals rfl

@[simp] theorem detectScheme_Count (b : Benchmark) : (detectScheme b).Count = b.Count := by
  unfold detectScheme; rfl

@[simp] theorem detectScheme_Duration (b : Benchmark) : (detectScheme b).Duration = b.Duration := by
  unfold detectScheme; rfl

@[simp] theorem detectScheme_Edns0 (b : Benchmark) : (detectScheme b).Edns0 = b.Edns0 := by
  unfold detectScheme; rfl

@[simp] theorem detectScheme_EdnsOpt (b : Benchmark) : (detectScheme b).EdnsOpt = b.EdnsOpt := by
  unfold detectScheme; rfl

@[simp] theorem detectScheme_HistMax (b : Benchmark) : (detectScheme b).HistMax = b.HistMax := by
  unfold detectScheme; rfl

@[simp] theorem detectScheme_RequestTimeout (b : Benchmark) :
    (detectScheme b).RequestTimeout = b.RequestTimeout := by
  unfold detectScheme; rfl

@[simp] theorem detectScheme_useQuic (b : Benchmark) :
    (detectScheme b).useQuic = strStarts b.Server "quic://" := by
  unfold detectScheme; rfl

@[simp] theorem detectScheme_Server (b : Benchmark) : (detectScheme b).Server = b.Server := by
  unfold detectScheme; rfl

@[simp] theorem detectScheme_useDoH (b : Benchmark) :
    (detectScheme b).useDoH = isHTTPUrl b.Server := by
  unfold detectScheme; rfl

/-- A successful `addDohPath` returns the input with the path-appending
step applied. -/
theorem addDohPath_ok_shape {b b' : Benchmark} (h : addDohPath b = .ok b') :
    b' = dohAppend b := by
  unfold addDohPath at h
  split at h
  · split at h
    · exact (Except.ok.inj h).symm
    · simp at h
  · have hb : b' = b := (Except.ok.inj h).symm
    rw [hb]
    unfold dohAppend
    rw [if_neg (by assumption)]

/-- A successful `normalizeServer` returns the fully normalized server
configuration. -/
theorem normalizeServer_ok_shape {b nb : Benchmark} (h : normalizeServer b = .ok nb) :
    nb = addPortIfMissing (dohAppend (stripQuic (detectScheme b))) := by
  unfold normalizeServer at h
  cases hd : addDohPath (stripQuic (detectScheme b)) with
  | error e => rw [hd] at h; simp at h
  | ok x =>
    rw [hd] at h
    have hx := addDohPath_ok_shape hd
    subst hx
    exact (Except.ok.inj h).symm

theorem normalizeServer_ok_Count {b nb : Benchmark} (h : normalizeServer b = .ok nb) :
    nb.Count = b.Count := by
  rw [normalizeServer_ok_shape h]; simp

theorem normalizeServer_ok_Duration {b nb : Benchmark} (h : normalizeServer b = .ok nb) :
    nb.Duration = b.Duration := by
  rw [normalizeServer_ok_shape h]; simp

theorem normalizeServer_ok_Edns0 {b nb : Benchmark} (h : normalizeServer b = .ok nb) :
    nb.Edns0 = b.Edns0 := by
  rw [normalizeServer_ok_shape h]; simp

theorem normalizeServer_ok_EdnsOpt {b nb : Benchmark} (h : normalizeServer b = .ok nb) :
    nb.EdnsOpt = b.EdnsOpt := by
  rw [normalizeServer_ok_shape h]; simp

theorem normalizeServer_ok_useQuic {b nb : Benchmark} (h : normalizeServer b = .ok nb) :
    nb.useQuic = strStarts b.Server "quic://" := by
  rw [normalizeServer_ok_shape h]; simp

/-- An http(s)-prefixed server string cannot carry the `quic://`
prefix. -/
theorem not_quic_of_http {s : String} (h : isHTTPUrl s = true) :
    strStarts s "quic://" = false := by
  unfold isHTTPUrl at h
  unfold strStarts at h ⊢
  have hh : ("http://" : String).data = ['h', 't', 't', 'p', ':', '/', '/'] := rfl
  have hhs : ("https://" : String).data = ['h', 't', 't', 'p', 's', ':', '/', '/'] := rfl
  have hq : ("quic://" : String).data = ['q', 'u', 'i', 'c', ':', '/', '/'] := rfl
  rw [hh, hhs] at h
  rw [hq]
  obtain ⟨cs, hcs⟩ : ∃ cs, s.data = cs := ⟨s.data, rfl⟩
  rw [hcs] at h ⊢
  cases cs with
  | nil => simp [charsHavePre] at h
  | cons c rest =>
    simp only [charsHavePre, Bool.or_eq_true, Bool.and_eq_true, decide_eq_true_eq] at h
    rcases h with ⟨hc, _⟩ | ⟨hc, _⟩ <;>
      (rw [← hc]; simp [charsHavePre])

/-- When the DoH URL-parse rule passes, the DoH step succeeds. -/
theorem addDohPath_ok_of (b : Benchmark)
    (hurl : isHTTPUrl b.Server = true → urlParseOk b.Server = true) :
    addDohPath (stripQuic (detectScheme b)) = .ok (dohAppend (stripQuic (detectScheme b))) := by
  by_cases hd : isHTTPUrl b.Server = true
  · have hqf : strStarts b.Server "quic://" = false := not_quic_of_http hd
    have hsq : stripQuic (detectScheme b) = detectScheme b := by
      unfold stripQuic
      rw [detectScheme_useQuic, hqf]
      simp
    rw [hsq]
    unfold addDohPath
    rw [if_pos (by rw [detectScheme_useDoH]; exact hd)]
    rw [if_pos (by rw [detectScheme_Server]; exact hurl hd)]
  · have hd' : (stripQuic (detectScheme b)).useDoH = false := by
      rw [stripQuic_useDoH, detectScheme_useDoH]
      cases hb : isHTTPUrl b.Server
      · rfl
      · exact absurd hb hd
    unfold addDohPath
    rw [if_neg (by rw [hd']; simp)]
    unfold dohAppend
    rw [if_neg (by rw [hd']; simp)]

/-- When the DoH URL-parse rule passes, `normalizeServer` succeeds with
the fully normalized configuration. -/
theorem normalizeServer_ok_of (b : Benchmark)
    (hurl : isHTTPUrl b.Server = true → urlParseOk b.Server = true) :
    normalizeServer b = .ok (addPortIfMissing (dohAppend (stripQuic (detectScheme b)))) := by
  unfold normalizeServer
  rw [addDohPath_ok_of b hurl]

@[simp] theorem defaultCount_Duration (b : Benchmark) : (defaultCount b).Duration = b.Duration := by
  unfold defaultCount; split <;> rfl

@[simp] theorem defaultCount_Edns0 (b : Benchmark) : (defaultCount b).Edns0 = b.Edns0 := by
  unfold defaultCount; split <;> rfl

@[simp] theorem defaultCount_EdnsOpt (b : Benchmark) : (defaultCount b).EdnsOpt = b.EdnsOpt := by
  unfold defaultCount; split <;> rfl

@[simp] theorem defaultCount_HistMax (b : Benchmark) : (defaultCount b).HistMax = b.HistMax := by
  unfold defaultCount; split <;> rfl

@[simp] theorem defaultCount_RequestTimeout (b : Benchmark) :
    (defaultCount b).RequestTimeout = b.RequestTimeout := by
  unfold defaultCount; split <;> rfl

@[simp] theorem defaultCount_useQuic (b : Benchmark) : (defaultCount b).useQuic = b.useQuic := by
  unfold defaultCount; split <;> rfl

@[simp] theorem defaultCount_Server (b : Benchmark) : (defaultCount b).Server = b.Server := by
  unfold defaultCount; split <;> rfl

@[simp] theorem defaultHistMax_Count (b : Benchmark) : (defaultHistMax b).Count = b.Count := by
  unfold defaultHistMax; split <;> rfl

@[simp] theorem defaultHistMax_Duration (b : Benchmark) : (defaultHistMax b).Duration = b.Duration := by
  unfold defaultHistMax; split <;> rfl

@[simp] theorem defaultHistMax_Edns0 (b : Benchmark) : (defaultHistMax b).Edns0 = b.Edns0 := by
  unfold defaultHistMax; split <;> rfl

@[simp] theorem defaultHistMax_EdnsOpt (b : Benchmark) : (defaultHistMax b).EdnsOpt = b.EdnsOpt := by
  unfold defaultHistMax; split <;> rfl

@[simp] theorem defaultHistMax_useQuic (b : Benchmark) : (defaultHistMax b).useQuic = b.useQuic := by
  unfold defaultHistMax; split <;> rfl

@[simp] theorem defaultHistMax_Server (b : Benchmark) : (defaultHistMax b).Server = b.Server := by
  unfold defaultHistMax; split <;> rfl

/-- A successful `prepareChecks` returns the input with the two
defaulting steps applied. -/
theorem prepareChecks_ok_shape {b b' : Benchmark} (h : prepareChecks b = .ok b') :
    b' = defaultHistMax (defaultCount b) := by
  simp only [prepareChecks] at h
  (repeat' split at h); all_goals simp_all

/-- A successful `prepare` implies a non-empty server, a successful
server normalization, and a successful validation phase on the
normalized configuration. -/
theorem prepare_ok_elim {b b' : Benchmark} (h : prepare b = .ok b') :
    b.Server ≠ "" ∧
      ∃ nb : Benchmark, normalizeServer b = .ok nb ∧ prepareChecks nb = .ok b' := by
  unfold prepare at h
  split at h
  · exact absurd h (by simp)
  · refine ⟨by assumption, ?_⟩
    cases hn : normalizeServer b with
    | error e => rw [hn] at h; simp at h
    | ok nb =>
      rw [hn] at h
      exact ⟨nb, rfl, h⟩

/-- A successful `prepareChecks` with a non-empty `EdnsOpt` implies the
`EdnsOpt` validation block accepted the string. -/
theorem prepareChecks_ok_validate {b b' : Benchmark} (h : prepareChecks b = .ok b')
    (hne : b.EdnsOpt ≠ "") : validateEdnsOpt b.EdnsOpt = none := by
  simp only [prepareChecks] at h
  (repeat' split at h); all_goals simp_all

/-! ### Counter merging (claim C8) -/

theorem foldl_mergeStep (l : List (Option Counters)) : ∀ acc : Counters,
    l.foldl mergeStep acc =
      { Total := acc.Total + ((l.filterMap id).map Counters.Total).sum
        IOError := acc.IOError + ((l.filterMap id).map Counters.IOError).sum
        Success := acc.Success + ((l.filterMap id).map Counters.Success).sum
        Negative := acc.Negative + ((l.filterMap id).map Counters.Negative).sum
        Error := acc.Error + ((l.filterMap id).map Counters.Error).sum
        IDmismatch := acc.IDmismatch + ((l.filterMap id).map Counters.IDmismatch).sum
        Truncated := acc.Truncated + ((l.filterMap id).map Counters.Truncated).sum } := by
  induction l with
  | nil => intro acc; simp
  | cons a t ih =>
    intro acc
    cases a with
    | none => simp [mergeStep, ih, List.filterMap_cons]
    | some c => simp [mergeStep, ih, List.filterMap_cons, add_assoc]

theorem sum_counter_inv (l : List Counters)
    (h : ∀ c ∈ l, c.Total = c.Success + c.Negative + c.Error + c.IOError) :
    (l.map Counters.Total).sum =
      (l.map Counters.Success).sum + (l.map Counters.Negative).sum +
        (l.map Counters.Error).sum + (l.map Counters.IOError).sum := by
  induction l with
  | nil => simp
  | cons c t ih =>
    simp only [List.map_cons, List.sum_cons]
    have hc := h c (by simp)
    have ht := ih (fun x hx => h x (by simp [hx]))
    omega

/-- C8: the reducer merges per-worker counters by per-field summation
(each field of the merged total equals the sum of that field over all
non-nil worker recorders); consequently, when every worker recorder
satisfies `Total = Success + Negative + Error + IOError`, the merged
total counters satisfy the same equation. -/
theorem claim_C8_reducer (stats : List (Option Counters))
    (h : ∀ c ∈ stats.filterMap id,
        c.Total = c.Success + c.Negative + c.Error + c.IOError) :
    ((mergeCounters stats).Total = ((stats.filterMap id).map Counters.Total).sum ∧
     (mergeCounters stats).IOError = ((stats.filterMap id).map Counters.IOError).sum ∧
     (mergeCounters stats).Success = ((stats.filterMap id).map Counters.Success).sum ∧
     (mergeCounters stats).Negative = ((stats.filterMap id).map Counters.Negative).sum ∧
     (mergeCounters stats).Error = ((stats.filterMap id).map Counters.Error).sum ∧
     (mergeCounters stats).IDmismatch = ((stats.filterMap id).map Counters.IDmismatch).sum ∧
     (mergeCounters stats).Truncated = ((stats.filterMap id).map Counters.Truncated).sum) ∧
    (mergeCounters stats).Total =
      (mergeCounters stats).Success + (mergeCounters stats).Negative +
        (mergeCounters stats).Error + (mergeCounters stats).IOError := by
  have hm := foldl_mergeStep stats ({} : Counters)
  unfold mergeCounters
  rw [hm]
  have hsum := sum_counter_inv (stats.filterMap id) h
  constructor
  · refine ⟨?_, ?_, ?_, ?_, ?_, ?_, ?_⟩ <;> simp
  · simp only [zero_add]
    omega

/-- Witness for C8 at a concrete recorder list (including a nil
`Counters` pointer). -/
theorem claim_C8_reducer_witness :
    (mergeCounters [some ⟨4, 1, 2, 1, 0, 0, 0⟩, none, some ⟨3, 0, 3, 0, 0, 5, 2⟩]).Total =
      (mergeCounters [some ⟨4, 1, 2, 1, 0, 0, 0⟩, none, some ⟨3, 0, 3, 0, 0, 5, 2⟩]).Success +
        (mergeCounters [some ⟨4, 1, 2, 1, 0, 0, 0⟩, none, some ⟨3, 0, 3, 0, 0, 5, 2⟩]).Negative +
        (mergeCounters [some ⟨4, 1, 2, 1, 0, 0, 0⟩, none, some ⟨3, 0, 3, 0, 0, 5, 2⟩]).Error +
        (mergeCounters [some ⟨4, 1, 2, 1, 0, 0, 0⟩, none, some ⟨3, 0, 3, 0, 0, 5, 2⟩]).IOError :=
  (claim_C8_reducer [some ⟨4, 1, 2, 1, 0, 0, 0⟩, none, some ⟨3, 0, 3, 0, 0, 5, 2⟩] (by decide)).2

/-! ### Error normalization (claim C9) -/

/-- C9: for every recorded error, the reported string is the DNS resolve
error's underlying message followed by the queried name, the operation
plus network plus (when present) address for a net op error, and the raw
error string otherwise. -/
theorem claim_C9_errString (e n op net a msg : String) :
    errString (.dnsErr e n) = e ++ " " ++ n ∧
    errString (.opErr op net (some a)) = op ++ " " ++ net ++ " " ++ a ∧
    errString (.opErr op net none) = op ++ " " ++ net ∧
    errString (.plainErr msg) = msg :=
  ⟨rfl, rfl, rfl, rfl⟩

/-! ### Probability sampling (claim C2) -/

/-- C2 counterexample: the claim "for every Probability ≤ 0 no query is
ever issued (Total = 0)" fails at `Probability = 0` with the legitimate
PRNG draw `u = 0 ∈ [0,1)`: the gate `u > Probability` does not skip and
one query is recorded. -/
theorem claim_C2_counterexample :
    ((0 : ℚ) ≤ 0 ∧ 0 ≤ (0 : ℚ) ∧ (0 : ℚ) < 1) ∧ recordedTotal 0 [0] = 1 := by
  constructor
  · norm_num
  · decide

/-- C2 (amended): an iteration is skipped exactly when the uniform draw
`u ∈ [0,1)` satisfies `u > Probability`; consequently no query is issued
when `Probability < 0` (not `≤ 0`: at `Probability = 0` the draw `u = 0`
is issued), and no iteration is skipped when `Probability ≥ 1`. -/
theorem claim_C2_sampling (p : ℚ) (us : List ℚ)
    (hb : ∀ u ∈ us, 0 ≤ u ∧ u < 1) :
    (∀ u : ℚ, shouldSkipIter u p = true ↔ p < u) ∧
    (p < 0 → recordedTotal p us = 0) ∧
    (1 ≤ p → recordedTotal p us = us.length) := by
  refine ⟨fun u => by simp [shouldSkipIter], ?_, ?_⟩
  · intro hp
    have hnil : us.filter (fun u => !shouldSkipIter u p) = [] := by
      rw [List.filter_eq_nil_iff]
      intro u hu
      have h0 := (hb u hu).1
      simp only [shouldSkipIter, Bool.not_eq_true', decide_eq_false_iff_not, not_not]
      exact hp.trans_le h0
    unfold recordedTotal
    rw [hnil]
    rfl
  · intro hp
    have hall : us.filter (fun u => !shouldSkipIter u p) = us := by
      rw [List.filter_eq_self]
      intro u hu
      have h1 := (hb u hu).2
      simp only [shouldSkipIter, Bool.not_eq_true', decide_eq_false_iff_not]
      exact not_lt.mpr (le_of_lt (h1.trans_le hp))
    unfold recordedTotal
    rw [hall]

/-- Witness for C2 (amended) at `Probability = -1` and `Probability = 2`
with the draw list `[0, 1/2]`. -/
theorem claim_C2_sampling_witness :
    recordedTotal (-1 : ℚ) [0, 1/2] = 0 ∧ recordedTotal (2 : ℚ) [0, 1/2] = 2 := by
  constructor
  · exact (claim_C2_sampling (-1) [0, 1/2] (by norm_num)).2.1 (by norm_num)
  · exact ((claim_C2_sampling (2) [0, 1/2] (by norm_num)).2.2 (by norm_num)).trans (by decide)

/-! ### OPT-record lemmas (claims C5, C6, C10) -/

theorem firstOpt_append_opt (l : List RR) (o : OPTRec) (h : firstOpt l = none) :
    firstOpt (l ++ [RR.opt o]) = some o := by
  induction l with
  | nil => rfl
  | cons a t ih =>
    cases a with
    | opt o0 => simp [firstOpt] at h
    | other =>
      simp only [firstOpt] at h
      simpa only [List.cons_append, firstOpt] using ih h

theorem firstOpt_upd (f : OPTRec → OPTRec) (l : List RR) :
    firstOpt (updFirstOpt f l) = (firstOpt l).map f := by
  induction l with
  | nil => rfl
  | cons a t ih => cases a <;> simp [updFirstOpt, firstOpt, ih]

theorem isEdns0_setEdns0_of_none {m : Msg} (u : Nat) (d : Bool) (h : isEdns0 m = none) :
    isEdns0 (setEdns0 m u d) = some ⟨u, d, []⟩ := by
  unfold isEdns0 setEdns0
  unfold isEdns0 at h
  exact firstOpt_append_opt _ _ h

/-- What `addEdnsOpt` produces: the first OPT record of the result
carries, as its last option, the code parsed from the left part of the
option string and the bytes decoded from the right part; when the
message had no OPT record, the auto-created one has buffer size 1232. -/
theorem addEdnsOpt_spec (m : Msg) (s : String) :
    ∃ o : OPTRec,
      isEdns0 (addEdnsOpt m s) = some o ∧
      o.options.getLast? =
        some ((parseUint16 ((splitOnColon s).getD 0 "")).1,
              (hexDecodeCore ((splitOnColon s).getD 1 "").data).1) ∧
      (isEdns0 m = none → o.udpSize = 1232) := by
  have hres : isEdns0 (addEdnsOpt m s) =
      (isEdns0 (if (isEdns0 m).isNone then setEdns0 m 1232 false else m)).map
        (fun o => { o with options := o.options ++
          [((parseUint16 ((splitOnColon s).getD 0 "")).1,
            (hexDecodeCore ((splitOnColon s).getD 1 "").data).1)] }) := by
    unfold addEdnsOpt isEdns0
    exact firstOpt_upd _ _
  cases hm : isEdns0 m with
  | none =>
    rw [hm] at hres
    simp only [Option.isNone_none, if_true] at hres
    rw [isEdns0_setEdns0_of_none 1232 false hm] at hres
    simp only [Option.map_some'] at hres
    refine ⟨_, hres, by simp, fun _ => rfl⟩
  | some o0 =>
    rw [hm] at hres
    simp only [Option.isNone_some, Bool.false_eq_true, if_false, hm, Option.map_some'] at hres
    refine ⟨_, hres, ?_, ?_⟩
    · simp
    · intro hnone
      exact absurd hnone (by simp)

theorem dnssecStep_of_some {m : Msg} {o : OPTRec} (h : isEdns0 m = some o) :
    isEdns0 (dnssecStep m) = some { o with doBit := true } := by
  unfold dnssecStep
  rw [h]
  simp only [Option.isNone_some, Bool.false_eq_true, if_false]
  show firstOpt (updFirstOpt _ m.Extra) = _
  rw [firstOpt_upd]
  unfold isEdns0 at h
  rw [h]
  rfl

theorem dnssecStep_of_none {m : Msg} (h : isEdns0 m = none) :
    isEdns0 (dnssecStep m) = some ⟨1232, true, []⟩ := by
  unfold dnssecStep
  rw [h]
  simp only [Option.isNone_none, if_true]
  show firstOpt (updFirstOpt _ (setEdns0 m 1232 false).Extra) = _
  rw [firstOpt_upd]
  have h2 := isEdns0_setEdns0_of_none 1232 false h
  unfold isEdns0 at h2
  rw [h2]
  rfl

@[simp] theorem setEdns0_Id (m : Msg) (u : Nat) (d : Bool) : (setEdns0 m u d).Id = m.Id := rfl

@[simp] theorem addEdnsOpt_Id (m : Msg) (s : String) : (addEdnsOpt m s).Id = m.Id := by
  unfold addEdnsOpt
  split <;> rfl

@[simp] theorem dnssecStep_Id (m : Msg) : (dnssecStep m).Id = m.Id := by
  unfold dnssecStep
  split <;> rfl

@[simp] theorem msgEdns0_Id (b : Benchmark) (m : Msg) : (msgEdns0 b m).Id = m.Id := by
  unfold msgEdns0; split <;> simp

@[simp] theorem msgEdnsOpt_Id (b : Benchmark) (m : Msg) : (msgEdnsOpt b m).Id = m.Id := by
  unfold msgEdnsOpt; split <;> simp

@[simp] theorem msgDnssec_Id (b : Benchmark) (m : Msg) : (msgDnssec b m).Id = m.Id := by
  unfold msgDnssec; split <;> simp

theorem buildMsg_Id (b : Benchmark) (r : Nat) (q : String) (qt : Nat) :
    (buildMsg b r q qt).Id = if b.useQuic then 0 else r % 65536 := by
  unfold buildMsg
  simp [msgCore]

/-! ### Transaction id (claim C5) -/

/-- C5: in DoQ mode (`Server` prefixed with `quic://`) every DNS request
message built by a worker carries transaction id 0; in every other mode
the transaction id is the worker PRNG draw `rando.Uint32()` truncated to
16 bits. -/
theorem claim_C5_txid (b b' : Benchmark) (r : Nat) (q : String) (qt : Nat)
    (h : prepare b = .ok b') :
    (strStarts b.Server "quic://" = true → (buildMsg b' r q qt).Id = 0) ∧
    (strStarts b.Server "quic://" = false → (buildMsg b' r q qt).Id = r % 65536) := by
  have hq : b'.useQuic = strStarts b.Server "quic://" := by
    obtain ⟨hs, nb, hn, hc⟩ := prepare_ok_elim h
    have hsh := prepareChecks_ok_shape hc
    subst hsh
    have hnb := normalizeServer_ok_shape hn
    subst hnb
    simp
  constructor
  · intro hpre
    rw [buildMsg_Id, hq, hpre]
    rfl
  · intro hpre
    rw [buildMsg_Id, hq, hpre]
    rfl

/-- Witness for C5 at the DoQ configuration `quic://1.2.3.4`. -/
theorem claim_C5_txid_witness :
    (buildMsg { Server := "1.2.3.4:853", Count := 1, useQuic := true } 9 "example.com." 1).Id = 0 :=
  (claim_C5_txid { Server := "quic://1.2.3.4" }
    { Server := "1.2.3.4:853", Count := 1, useQuic := true }
    9 "example.com." 1 (by rfl)).1 rfl

/-! ### EDNS round-trip (claim C6) -/

/-- Applying `addEdnsOpt` with any option string appends the parsed pair to the
options of the first OPT record of the result. -/
theorem mem_of_getLast?_eq {α : Type} {l : List α} {a : α} (h : l.getLast? = some a) :
    a ∈ l := by
  obtain ⟨hne, heq⟩ := List.mem_getLast?_eq_getLast (show a ∈ l.getLast? from h)
  rw [heq]
  exact List.getLast_mem hne

theorem addEdnsOpt_mem (m : Msg) (s : String) :
    ∃ o : OPTRec,
      isEdns0 (addEdnsOpt m s) = some o ∧
      ((parseUint16 ((splitOnColon s).getD 0 "")).1,
        (hexDecodeCore ((splitOnColon s).getD 1 "").data).1) ∈ o.options := by
  obtain ⟨o, h1, h2, _⟩ := addEdnsOpt_spec m s
  exact ⟨o, h1, mem_of_getLast?_eq h2⟩

/-- The message produced by a worker iteration with a non-empty
`EdnsOpt` carries the parsed option pair on its first OPT record. -/
theorem buildMsg_ednsopt_mem (b : Benchmark) (r : Nat) (q : String) (qt : Nat)
    (h : b.EdnsOpt ≠ "") :
    ∃ o : OPTRec,
      isEdns0 (buildMsg b r q qt) = some o ∧
      ((parseUint16 ((splitOnColon b.EdnsOpt).getD 0 "")).1,
        (hexDecodeCore ((splitOnColon b.EdnsOpt).getD 1 "").data).1) ∈ o.options := by
  unfold buildMsg msgEdnsOpt
  rw [if_pos h]
  obtain ⟨o, h1, hmem⟩ := addEdnsOpt_mem (msgEdns0 b (msgCore b r q qt)) b.EdnsOpt
  unfold msgDnssec
  split
  · exact ⟨{ o with doBit := true }, dnssecStep_of_some h1, hmem⟩
  · exact ⟨o, h1, hmem⟩

/-- C6: every request built with `EdnsOpt = "65001:deadbeef"` carries an
OPT record whose local option has code 65001 and data bytes
`de ad be ef`; and whenever `addEdnsOpt` or the DNSSEC branch must
auto-create an OPT record because none exists, the created record's UDP
buffer size is 1232. -/
theorem claim_C6_edns (b : Benchmark) (r : Nat) (q : String) (qt : Nat)
    (hopt : b.EdnsOpt = "65001:deadbeef") :
    (∃ o : OPTRec, isEdns0 (buildMsg b r q qt) = some o ∧
       (65001, [222, 173, 190, 239]) ∈ o.options) ∧
    (∀ m : Msg, isEdns0 m = none →
       ∃ o : OPTRec, isEdns0 (addEdnsOpt m b.EdnsOpt) = some o ∧ o.udpSize = 1232) ∧
    (∀ m : Msg, isEdns0 m = none →
       ∃ o : OPTRec, isEdns0 (dnssecStep m) = some o ∧ o.udpSize = 1232) := by
  refine ⟨?_, ?_, ?_⟩
  · obtain ⟨o, h1, hmem⟩ := buildMsg_ednsopt_mem b r q qt (by rw [hopt]; decide)
    refine ⟨o, h1, ?_⟩
    have hc : (parseUint16 ((splitOnColon b.EdnsOpt).getD 0 "")).1 = 65001 := by
      rw [hopt]; decide
    have hd : (hexDecodeCore ((splitOnColon b.EdnsOpt).getD 1 "").data).1 =
        [222, 173, 190, 239] := by
      rw [hopt]; decide
    rw [hc, hd] at hmem
    exact hmem
  · intro m hm
    obtain ⟨o, h1, _, h3⟩ := addEdnsOpt_spec m b.EdnsOpt
    exact ⟨o, h1, h3 hm⟩
  · intro m hm
    exact ⟨⟨1232, true, []⟩, dnssecStep_of_none hm, rfl⟩

/-- Witness for C6 at a concrete configuration (plain DNS, DNSSEC off,
no `Edns0` buffer) and, for the auto-creation parts, at the empty
message. -/
theorem claim_C6_edns_witness :
    (∃ o : OPTRec,
       isEdns0 (buildMsg { Server := "1.2.3.4:53", EdnsOpt := "65001:deadbeef" } 7 "example.com." 1) = some o ∧
       (65001, [222, 173, 190, 239]) ∈ o.options) ∧
    (∃ o : OPTRec, isEdns0 (addEdnsOpt {} "65001:deadbeef") = some o ∧ o.udpSize = 1232) ∧
    (∃ o : OPTRec, isEdns0 (dnssecStep {}) = some o ∧ o.udpSize = 1232) := by
  refine ⟨?_, ?_, ?_⟩
  · exact (claim_C6_edns { Server := "1.2.3.4:53", EdnsOpt := "65001:deadbeef" }
      7 "example.com." 1 rfl).1
  · exact (claim_C6_edns { Server := "1.2.3.4:53", EdnsOpt := "65001:deadbeef" }
      7 "example.com." 1 rfl).2.1 {} rfl
  · exact (claim_C6_edns { Server := "1.2.3.4:53", EdnsOpt := "65001:deadbeef" }
      7 "example.com." 1 rfl).2.2 {} rfl

/-! ### EdnsOpt safety after a successful prepare (claim C10) -/

/-- C10: for every `Benchmark` whose `prepare` returned nil and whose
`EdnsOpt` is non-empty, `addEdnsOpt` cannot fail: the split on `':'`
yields exactly two parts (so the Go index `s[1]` is in bounds), the hex
decode and the 16-bit decimal parse whose errors `addEdnsOpt` discards
succeed, and the appended EDNS0 local option carries exactly the code
and bytes that `prepare` validated. -/
theorem claim_C10_addEdnsOpt_safe (b b' : Benchmark) (h : prepare b = .ok b')
    (hne : b.EdnsOpt ≠ "") :
    (splitOnColon b.EdnsOpt).length = 2 ∧
    ∃ code : Nat, ∃ data : List Nat,
      parseUint16 ((splitOnColon b.EdnsOpt).getD 0 "") = (code, true) ∧
      hexDecodeString ((splitOnColon b.EdnsOpt).getD 1 "") = some data ∧
      ∀ m : Msg, ∃ o : OPTRec,
        isEdns0 (addEdnsOpt m b.EdnsOpt) = some o ∧
        o.options.getLast? = some (code, data) := by
  have hval : validateEdnsOpt b.EdnsOpt = none := by
    obtain ⟨hs, nb, hn, hc⟩ := prepare_ok_elim h
    have hEd : nb.EdnsOpt = b.EdnsOpt := normalizeServer_ok_EdnsOpt hn
    have hv := prepareChecks_ok_validate hc (by rw [hEd]; exact hne)
    rw [hEd] at hv
    exact hv
  unfold validateEdnsOpt at hval
  set parts := splitOnColon b.EdnsOpt with hparts
  by_cases hlen : parts.length = 2
  · refine ⟨hlen, (parseUint16 (parts.getD 0 "")).1,
      (hexDecodeCore (parts.getD 1 "").data).1, ?_, ?_, ?_⟩
    · simp only [hlen] at hval
      simp only [if_neg (by omega : ¬(2 : Nat) ≠ 2)] at hval
      by_cases hhex : (hexDecodeString (parts.getD 1 "")).isNone
      · rw [if_pos hhex] at hval; exact absurd hval (by simp)
      · rw [if_neg hhex] at hval
        by_cases hpar : (parseUint16 (parts.getD 0 "")).2 = false
        · rw [if_pos hpar] at hval; exact absurd hval (by simp)
        · have : (parseUint16 (parts.getD 0 "")).2 = true := by
            cases hsnd : (parseUint16 (parts.getD 0 "")).2
            · exact absurd hsnd hpar
            · rfl
          exact Prod.ext rfl this
    · simp only [hlen] at hval
      simp only [if_neg (by omega : ¬(2 : Nat) ≠ 2)] at hval
      by_cases hhex : (hexDecodeString (parts.getD 1 "")).isNone
      · rw [if_pos hhex] at hval; exact absurd hval (by simp)
      · simp only [hexDecodeString] at hhex ⊢
        cases hcore : (hexDecodeCore (parts.getD 1 "").data).2
        · rw [hcore] at hhex; simp at hhex
        · simp [hcore]
    · intro m
      obtain ⟨o, h1, h2, _⟩ := addEdnsOpt_spec m b.EdnsOpt
      exact ⟨o, h1, h2⟩
  · rw [if_pos hlen] at hval
    exact absurd hval (by simp)

/-- Witness for C10 at the configuration `Server = "1.2.3.4"`,
`EdnsOpt = "65001:deadbeef"`: prepare succeeds there and the split has
exactly two parts. -/
theorem claim_C10_addEdnsOpt_safe_witness :
    (splitOnColon "65001:deadbeef").length = 2 :=
  (claim_C10_addEdnsOpt_safe { Server := "1.2.3.4", EdnsOpt := "65001:deadbeef" }
    { Server := "1.2.3.4:53", Count := 1, EdnsOpt := "65001:deadbeef" }
    (by rfl) (by decide)).1

/-! ### Termination bound (claim C3) -/

/-- The validation phase `prepareChecks` succeeds when all its three rules pass, returning
the defaulted configuration. -/
theorem prepareChecks_ok_of (b : Benchmark)
    (hcd : ¬(0 < (defaultCount b).Duration ∧ 0 < (defaultCount b).Count))
    (he : ¬(b.Edns0 ≠ 0 ∧ (b.Edns0 < 512 ∨ 4096 < b.Edns0)))
    (ho : b.EdnsOpt = "" ∨ validateEdnsOpt b.EdnsOpt = none) :
    prepareChecks b = .ok (defaultHistMax (defaultCount b)) := by
  simp only [prepareChecks]
  rw [if_neg hcd]
  rw [if_neg (by simpa using he)]
  rcases ho with ho | ho
  · rw [if_neg (by simp [ho])]
  · by_cases hne : b.EdnsOpt = ""
    · rw [if_neg (by simp [hne])]
    · rw [if_pos (by simpa using hne)]
      simp only [defaultHistMax_EdnsOpt, defaultCount_EdnsOpt, ho]

/-- C3: `prepare` enforces the termination bound — with `Count == 0` and
`Duration == 0` it sets `Count := 1` and succeeds (given the other rules
pass: non-empty server, a DoH server URL that `url.Parse` accepts, the
`Edns0` range rule and the `EdnsOpt` format rule), and with both
`Count > 0` and `Duration > 0` it returns an error so the run does not
start. -/
theorem claim_C3_termination (b : Benchmark) :
    (b.Server ≠ "" →
      (isHTTPUrl b.Server = true → urlParseOk b.Server = true) →
      (b.Edns0 = 0 ∨ (512 ≤ b.Edns0 ∧ b.Edns0 ≤ 4096)) →
      (b.EdnsOpt = "" ∨ validateEdnsOpt b.EdnsOpt = none) →
      b.Count = 0 → b.Duration = 0 →
      ∃ b' : Benchmark, prepare b = .ok b' ∧ b'.Count = 1) ∧
    (0 < b.Count → 0 < b.Duration → ∃ e : String, prepare b = .error e) := by
  constructor
  · intro hs hurl he ho hc hd
    refine ⟨defaultHistMax (defaultCount (addPortIfMissing (dohAppend (stripQuic (detectScheme b))))),
      ?_, ?_⟩
    · unfold prepare
      rw [if_neg hs, normalizeServer_ok_of b hurl]
      apply prepareChecks_ok_of
      · simp [defaultCount, hc, hd]
      · simp only [addPortIfMissing_Edns0, dohAppend_Edns0, stripQuic_Edns0, detectScheme_Edns0]
        rcases he with h | h <;> omega
      · rcases ho with h | h
        · left; simp [h]
        · right; simpa using h
    · simp [defaultCount, hc, hd]
  · intro hc hd
    unfold prepare
    by_cases hs : b.Server = ""
    · rw [if_pos hs]
      exact ⟨_, rfl⟩
    · rw [if_neg hs]
      cases hn : normalizeServer b with
      | error e => exact ⟨e, rfl⟩
      | ok nb =>
        have hnC : nb.Count = b.Count := normalizeServer_ok_Count hn
        have hnD : nb.Duration = b.Duration := normalizeServer_ok_Duration hn
        have hdc : defaultCount nb = nb := by
          unfold defaultCount
          rw [if_neg]
          rw [hnC, hnD]
          intro hcc
          omega
        simp only [prepareChecks, hdc]
        rw [if_pos (by rw [hnC, hnD]; exact ⟨hd, hc⟩)]
        exact ⟨_, rfl⟩

/-- Witness for C3: `Count = 0, Duration = 0` succeeds with `Count = 1`,
and `Count = 5, Duration = 1s` fails. -/
theorem claim_C3_termination_witness :
    (∃ b' : Benchmark, prepare { Server := "1.2.3.4" } = .ok b' ∧ b'.Count = 1) ∧
    (∃ e : String, prepare { Server := "ns", Count := 5, Duration := 1000000000 } = .error e) :=
  ⟨(claim_C3_termination { Server := "1.2.3.4" }).1 (by decide) (by decide) (Or.inl rfl)
     (Or.inl rfl) rfl rfl,
   (claim_C3_termination { Server := "ns", Count := 5, Duration := 1000000000 }).2
     (by norm_num) (by norm_num)⟩

/-! ### EdnsOpt validation (claim C4) -/

/-- Characterization of a passing `EdnsOpt` validation. -/
theorem validateEdnsOpt_eq_none_iff (s : String) :
    validateEdnsOpt s = none ↔
      ((splitOnColon s).length = 2 ∧
       (parseUint16 ((splitOnColon s).getD 0 "")).2 = true ∧
       hexDecodeString ((splitOnColon s).getD 1 "") ≠ none) := by
  simp only [validateEdnsOpt]
  split_ifs with h1 h2 h3 <;>
    simp_all [Option.isNone_iff_eq_none]

/-- C4: for every configuration with a non-empty `EdnsOpt` whose other
rules pass, `prepare` returns an error if and only if the string does
not split on `':'` into exactly two parts, or the left part does not
parse as an unsigned 16-bit decimal, or the right part does not decode
as a hexadecimal string. -/
theorem claim_C4_ednsopt (b : Benchmark)
    (hs : b.Server ≠ "")
    (hurl : isHTTPUrl b.Server = true → urlParseOk b.Server = true)
    (hcd : ¬(0 < b.Count ∧ 0 < b.Duration))
    (he : b.Edns0 = 0 ∨ (512 ≤ b.Edns0 ∧ b.Edns0 ≤ 4096))
    (hne : b.EdnsOpt ≠ "") :
    (∃ e : String, prepare b = .error e) ↔
      ((splitOnColon b.EdnsOpt).length ≠ 2 ∨
       (parseUint16 ((splitOnColon b.EdnsOpt).getD 0 "")).2 = false ∨
       hexDecodeString ((splitOnColon b.EdnsOpt).getD 1 "") = none) := by
  have key : prepare b =
      (match validateEdnsOpt b.EdnsOpt with
       | some e => Except.error e
       | none => Except.ok (defaultHistMax (defaultCount
           (addPortIfMissing (dohAppend (stripQuic (detectScheme b))))))) := by
    unfold prepare
    rw [if_neg hs, normalizeServer_ok_of b hurl]
    show prepareChecks (addPortIfMissing (dohAppend (stripQuic (detectScheme b)))) = _
    simp only [prepareChecks]
    have hcd' : ¬(0 < (defaultCount (addPortIfMissing (dohAppend (stripQuic (detectScheme b))))).Duration ∧
        0 < (defaultCount (addPortIfMissing (dohAppend (stripQuic (detectScheme b))))).Count) := by
      unfold defaultCount
      split
      · simp_all
      · simp only [addPortIfMissing_Count, dohAppend_Count, stripQuic_Count, detectScheme_Count,
          addPortIfMissing_Duration, dohAppend_Duration, stripQuic_Duration, detectScheme_Duration]
        tauto
    rw [if_neg hcd']
    rw [if_neg (by
      simp only [defaultHistMax_Edns0, defaultCount_Edns0, addPortIfMissing_Edns0,
        dohAppend_Edns0, stripQuic_Edns0, detectScheme_Edns0]
      rcases he with h | h <;> omega)]
    rw [if_pos (by
      simp only [defaultHistMax_EdnsOpt, defaultCount_EdnsOpt, addPortIfMissing_EdnsOpt,
        dohAppend_EdnsOpt, stripQuic_EdnsOpt, detectScheme_EdnsOpt]
      exact hne)]
    simp only [defaultHistMax_EdnsOpt, defaultCount_EdnsOpt, addPortIfMissing_EdnsOpt,
      dohAppend_EdnsOpt, stripQuic_EdnsOpt, detectScheme_EdnsOpt]
  rw [key]
  cases hv : validateEdnsOpt b.EdnsOpt with
  | some msg =>
    constructor
    · intro _
      have hnn : ¬((splitOnColon b.EdnsOpt).length = 2 ∧
          (parseUint16 ((splitOnColon b.EdnsOpt).getD 0 "")).2 = true ∧
          hexDecodeString ((splitOnColon b.EdnsOpt).getD 1 "") ≠ none) := by
        rw [← validateEdnsOpt_eq_none_iff, hv]
        simp
      by_cases h1 : (splitOnColon b.EdnsOpt).length = 2
      · by_cases h2 : (parseUint16 ((splitOnColon b.EdnsOpt).getD 0 "")).2 = true
        · right; right
          by_contra h3
          exact hnn ⟨h1, h2, h3⟩
        · right; left
          cases hb : (parseUint16 ((splitOnColon b.EdnsOpt).getD 0 "")).2
          · rfl
          · exact absurd hb h2
      · left; exact h1
    · intro _
      exact ⟨msg, rfl⟩
  | none =>
    constructor
    · rintro ⟨e, he2⟩
      exact absurd he2 (by simp)
    · intro hbad
      rw [validateEdnsOpt_eq_none_iff] at hv
      obtain ⟨h1, h2, h3⟩ := hv
      rcases hbad with h | h | h
      · exact absurd h1 h
      · rw [h2] at h
        exact absurd h (by simp)
      · exact absurd h h3

/-- Witness for C4: `EdnsOpt = "abc"` makes `prepare` fail. -/
theorem claim_C4_ednsopt_witness :
    ∃ e : String, prepare { Server := "1.2.3.4", EdnsOpt := "abc" } = .error e :=
  (claim_C4_ednsopt { Server := "1.2.3.4", EdnsOpt := "abc" }
    (by decide) (by decide) (by norm_num) (Or.inl rfl) (by decide)).mpr (by decide)

/-! ### Port defaulting (claim C7) -/

/-- C7: `addPortIfMissing` leaves DoH servers unchanged and servers
already in host:port form unchanged; otherwise it appends port 853 in
DoT or DoQ mode and port 53 otherwise — so preparing `1.2.3.4` yields
`1.2.3.4:53` for plain DNS and `1.2.3.4:853` for DoT and DoQ. -/
theorem claim_C7_ports :
    (∀ b : Benchmark, b.useDoH = true → addPortIfMissing b = b) ∧
    (∀ b : Benchmark, b.useDoH = false → splitHostPortOk b.Server = true →
       addPortIfMissing b = b) ∧
    (∀ b : Benchmark, b.useDoH = false → splitHostPortOk b.Server = false →
       (addPortIfMissing b).Server =
         joinHostPort b.Server (if b.DOT || b.useQuic then "853" else "53")) ∧
    (∃ b1 : Benchmark, prepare { Server := "1.2.3.4" } = .ok b1 ∧
       b1.Server = "1.2.3.4:53") ∧
    (∃ b2 : Benchmark, prepare { Server := "1.2.3.4", DOT := true } = .ok b2 ∧
       b2.Server = "1.2.3.4:853") ∧
    (∃ b3 : Benchmark, prepare { Server := "quic://1.2.3.4" } = .ok b3 ∧
       b3.Server = "1.2.3.4:853") := by
  refine ⟨?_, ?_, ?_, ⟨_, rfl, rfl⟩, ⟨_, rfl, rfl⟩, ⟨_, rfl, rfl⟩⟩
  · intro b h
    unfold addPortIfMissing
    rw [if_pos h]
  · intro b h1 h2
    unfold addPortIfMissing
    rw [if_neg (by simp [h1]), if_pos h2]
  · intro b h1 h2
    unfold addPortIfMissing
    rw [if_neg (by simp [h1]), if_neg (by simp [h2])]
    by_cases hd : b.DOT = true
    · rw [if_pos hd, hd]
      simp
    · rw [if_neg hd]
      by_cases hq : b.useQuic = true
      · rw [if_pos hq, hq]
        simp only [Bool.or_true, if_true]
      · rw [if_neg hq]
        have hd' : b.DOT = false := by
          cases hb : b.DOT
          · rfl
          · exact absurd hb hd
        have hq' : b.useQuic = false := by
          cases hb : b.useQuic
          · rfl
          · exact absurd hb hq
        rw [hd', hq']
        simp

/-- Witness for C7 at concrete configurations for each universally
quantified conjunct. -/
theorem claim_C7_ports_witness :
    addPortIfMissing { Server := "https://1.2.3.4/dns-query", useDoH := true } =
      { Server := "https://1.2.3.4/dns-query", useDoH := true } ∧
    addPortIfMissing { Server := "1.2.3.4:5353" } = { Server := "1.2.3.4:5353" } ∧
    (addPortIfMissing { Server := "1.2.3.4", DOT := true }).Server =
      joinHostPort "1.2.3.4" "853" := by
  refine ⟨claim_C7_ports.1 _ rfl, claim_C7_ports.2.1 _ rfl (by decide), ?_⟩
  have h := claim_C7_ports.2.2.1 { Server := "1.2.3.4", DOT := true } rfl (by decide)
  simpa using h

/-! ### Connection rotation (claim C1) -/

theorem queryConn_rot {k i : Nat} (hk : k ≠ 0) (hi : i % k = 0) (st : ConnState) :
    queryConn k i st = ⟨true, st.dials + 1⟩ := by
  obtain ⟨co, d⟩ := st
  cases co <;> simp [queryConn, hk, hi]

theorem queryConn_keep {k i : Nat} (hi : i % k ≠ 0) {st : ConnState} (hco : st.co = true) :
    queryConn k i st = st := by
  obtain ⟨co, d⟩ := st
  simp only at hco
  subst hco
  simp [queryConn, hi]

theorem runRep_peel (n k i : Nat) (st : ConnState) :
    runRep (n + 1) k i st = queryConn k i (runRep n k i st) := by
  unfold runRep
  rw [List.range_succ, List.foldl_append, List.foldl_cons, List.foldl_nil]

theorem runRep_rot {qpi k i : Nat} (hk : k ≠ 0) (hi : i % k = 0) (hq : 0 < qpi)
    (st : ConnState) : runRep qpi k i st = ⟨true, st.dials + qpi⟩ := by
  induction qpi with
  | zero => exact absurd hq (by omega)
  | succ n ih =>
    rw [runRep_peel]
    rcases Nat.eq_zero_or_pos n with h0 | hpos
    · subst h0
      rw [show runRep 0 k i st = st from rfl, queryConn_rot hk hi]
    · rw [ih hpos, queryConn_rot hk hi]
      simp [Nat.add_assoc]

theorem runRep_keep {qpi k i : Nat} (hi : i % k ≠ 0) {st : ConnState} (hco : st.co = true) :
    runRep qpi k i st = st := by
  induction qpi with
  | zero => rfl
  | succ n ih =>
    rw [runRep_peel, ih, queryConn_keep hi hco]

theorem runWorker_peel (n qpi k : Nat) :
    runWorker (n + 1) qpi k = runRep qpi k n (runWorker n qpi k) := by
  unfold runWorker
  rw [List.range_succ, List.foldl_append, List.foldl_cons, List.foldl_nil]

theorem runWorker_qpi0 (count k : Nat) : runWorker count 0 k = ⟨false, 0⟩ := by
  induction count with
  | zero => rfl
  | succ n ih => rw [runWorker_peel, ih]; rfl

theorem ceilDivNat_succ_of_mod_eq_zero {n k : Nat} (hk : 0 < k) (h : n % k = 0) :
    ceilDivNat (n + 1) k = ceilDivNat n k + 1 := by
  obtain ⟨q, rfl⟩ : ∃ q, n = k * q := ⟨n / k, by
    conv_lhs => rw [← Nat.div_add_mod n k]
    rw [h, Nat.add_zero]⟩
  unfold ceilDivNat
  have e1 : k * q + 1 + k - 1 = k * q + k := by omega
  have e2 : k * q + k - 1 = k * q + (k - 1) := by omega
  rw [e1, e2, Nat.mul_add_div hk, Nat.mul_add_div hk, Nat.div_self hk,
    Nat.div_eq_of_lt (by omega)]

theorem ceilDivNat_succ_of_mod_ne_zero {n k : Nat} (hk : 0 < k) (h : n % k ≠ 0) :
    ceilDivNat (n + 1) k = ceilDivNat n k := by
  have hr1 : 1 ≤ n % k := Nat.one_le_iff_ne_zero.mpr h
  obtain ⟨q, r, hr, rfl, hr1'⟩ : ∃ q r, r < k ∧ n = k * q + r ∧ 1 ≤ r :=
    ⟨n / k, n % k, Nat.mod_lt _ hk, by rw [Nat.div_add_mod], hr1⟩
  unfold ceilDivNat
  have e1 : k * q + r + 1 + k - 1 = k * q + (r + k) := by omega
  have e2 : k * q + r + k - 1 = k * q + (r - 1 + k) := by omega
  rw [e1, e2, Nat.mul_add_div hk, Nat.mul_add_div hk,
    Nat.add_div_right _ hk, Nat.add_div_right _ hk,
    Nat.div_eq_of_lt hr, Nat.div_eq_of_lt (show r - 1 < k by omega)]

theorem runWorker_formula {qpi k : Nat} (hk : k ≠ 0) (hq : 0 < qpi) :
    ∀ count : Nat, 0 < count →
      runWorker count qpi k = ⟨true, qpi * ceilDivNat count k⟩ := by
  intro count
  induction count with
  | zero => intro h; exact absurd h (by omega)
  | succ n ih =>
    intro _
    rcases Nat.eq_zero_or_pos n with h0 | hpos
    · subst h0
      rw [runWorker_peel, show runWorker 0 qpi k = ⟨false, 0⟩ from rfl,
        runRep_rot hk (Nat.zero_mod k) hq]
      have hc1 : ceilDivNat 1 k = 1 := by
        unfold ceilDivNat
        rw [show 1 + k - 1 = k by omega, Nat.div_self (by omega)]
      rw [hc1]
      simp
    · rw [runWorker_peel, ih hpos]
      by_cases hmod : n % k = 0
      · rw [runRep_rot hk hmod hq, ceilDivNat_succ_of_mod_eq_zero (by omega) hmod]
        simp [Nat.mul_add]
      · rw [runRep_keep hmod rfl, ceilDivNat_succ_of_mod_ne_zero (by omega) hmod]

/-- C1 counterexample: with two queries per iteration (e.g. two
questions and one query type), `Count = 1` and `QperConn = 3`, a worker
performs 2 dial events although the worker issues 2 queries and
`⌈issued / k⌉ = ⌈2 / 3⌉ = 1`: the closure closes and redials before
every query of an iteration whose counter satisfies `i % k == 0`, not
only before the first, and iteration `i = 0` is such an iteration. -/
theorem claim_C1_counterexample :
    (runWorker 1 2 3).dials = 2 ∧
    ceilDivNat (1 * 2) 3 = 1 ∧
    (runWorker 1 2 3).dials ≠ ceilDivNat (1 * 2) 3 := by decide

/-- C1 (amended): in plain-DNS/DoT mode with `QperConn = k > 0` and no
transport errors, a worker that runs `count` repetitions of `qpi`
queries each (`qpi = |questions| * |types|`) performs
`qpi * ⌈count / k⌉` dial events: the connection is closed and redialed
before every query of a repetition whose counter `i` satisfies
`i % k == 0` (the first query of the run dials because no connection
exists yet).  Only when each repetition issues exactly one query
(`qpi = 1`) does this equal `⌈issued / k⌉` as the claim states. -/
theorem claim_C1_rotation (count qpi k : Nat) (hk : 0 < k) :
    (runWorker count qpi k).dials = qpi * ceilDivNat count k ∧
    (qpi = 1 → (runWorker count qpi k).dials = ceilDivNat (count * qpi) k) := by
  have main : (runWorker count qpi k).dials = qpi * ceilDivNat count k := by
    rcases Nat.eq_zero_or_pos qpi with hq | hq
    · subst hq
      rw [runWorker_qpi0]
      simp
    · rcases Nat.eq_zero_or_pos count with hc | hc
      · subst hc
        rw [show runWorker 0 qpi k = ⟨false, 0⟩ from rfl]
        have hc0 : ceilDivNat 0 k = 0 := by
          unfold ceilDivNat
          exact Nat.div_eq_of_lt (by omega)
        rw [hc0]
        simp
      · rw [runWorker_formula (by omega) hq count hc]
  refine ⟨main, fun h1 => ?_⟩
  subst h1
  rw [main, Nat.mul_one, Nat.one_mul]

/-- Witness for C1 (amended) at `count = 5`, `qpi = 3`, `k = 2`. -/
theorem claim_C1_rotation_witness :
    (runWorker 5 3 2).dials = 3 * ceilDivNat 5 2 :=
  (claim_C1_rotation 5 3 2 (by decide)).1

end Dnspyre
